import Mathlib

/-!
Verification development for the Xenon backend match accrual and rollback
engine (src/main.py).  The MongoDB collections are embedded as explicit
maps from identifier strings to documents; the match ledger is an
association list in insertion order (find and delete act on the first
matching entry, mirroring find_one and delete_one).  Counters are
unbounded integers, mirroring MongoDB int64 increments in the regime the
application exercises.  Python exceptions are embedded as an error value
returned next to the state reached when the exception is raised.
-/

namespace Xenon

/-- A per-player result in a match, from the Literal type of
PlayerMatchResult in src/main.py. -/
inductive PResult where
  | win
  | loss
  | draw
  | sub
deriving DecidableEq

/-- The derived team-level result of a match. -/
inductive TeamResult where
  | win
  | loss
  | draw
deriving DecidableEq

/-- Errors surfaced by the routes: badRequest models HTTPException 400,
notFound models HTTPException 404, invalidObjectId models the exception
raised by the bson ObjectId constructor on a malformed identifier. -/
inductive Err where
  | badRequest
  | notFound
  | invalidObjectId
deriving DecidableEq

/-- PlayerMatchResult from src/main.py. -/
structure PlayerResult where
  player_id : String
  result : PResult
deriving DecidableEq

/-- MatchCreate from src/main.py. -/
structure MatchCreate where
  tournament_id : String
  team_id : String
  opponent_name : String
  player_results : List PlayerResult
deriving DecidableEq

/-- A document of the global players collection: profile fields and the
career counters, exactly the keys written by add_player and incremented
by the accrual and rollback code.  No derived field is part of the stored
document. -/
structure PlayerDoc where
  name : String
  dob : String
  instagram_link : Option String
  facebook_link : Option String
  matches_played : Int
  wins : Int
  draws : Int
  loss : Int
deriving DecidableEq

/-- The stats sub-document of a team document. -/
structure TeamStats where
  matches_played : Int
  wins : Int
  draws : Int
  loss : Int
  points : Int
deriving DecidableEq

/-- The tournament-scoped stats sub-document embedded per roster player. -/
structure PlayerStats where
  matches_played : Int
  wins : Int
  draws : Int
  loss : Int
deriving DecidableEq

/-- An element of the players array embedded in a team document. -/
structure TeamPlayerRecord where
  player_id : String
  name : String
  stats : PlayerStats
deriving DecidableEq

/-- A document of the teams collection. -/
structure TeamDoc where
  name : String
  tournament_id : String
  stats : TeamStats
  players : List TeamPlayerRecord
deriving DecidableEq

/-- A document of the tournaments collection. -/
structure TournamentDoc where
  name : String
  total_teams : Int
deriving DecidableEq

/-- A ledger entry of the matches collection, as written by record_match
and update_match: the MatchCreate fields plus the persisted
calculated_team_result. -/
structure MatchDoc where
  tournament_id : String
  team_id : String
  opponent_name : String
  player_results : List PlayerResult
  calculated_team_result : TeamResult
deriving DecidableEq

/-- A keyed collection with unique identifiers, the shape Mongo gives the
players, teams and tournaments collections through their primary key. -/
abbrev Coll (α : Type) := String → Option α

/-- The whole database state.  The matches ledger keeps insertion order
as an association list of identifier and document; fresh feeds the
minting of new ObjectIds by insert_one. -/
@[ext]
structure DB where
  players : Coll PlayerDoc
  teams : Coll TeamDoc
  tournaments : Coll TournamentDoc
  matches_collection : List (String × MatchDoc)
  fresh : Nat

/-- bson ObjectId.is_valid: a 24 character hexadecimal string. -/
def ObjectId.isValid (s : String) : Bool :=
  (s.length == 24) &&
    s.data.all (fun c =>
      c.isDigit || (97 ≤ c.toNat && c.toNat ≤ 102) || (65 ≤ c.toNat && c.toNat ≤ 70))

/-- A hexadecimal digit character. -/
def hexChar (d : Nat) : Char :=
  if d < 10 then Char.ofNat (48 + d) else Char.ofNat (87 + d)

/-- Models the ObjectId minted by insert_one for a new ledger entry: an
injective encoding of the fresh counter as a 24 digit hex string. -/
def freshOid (n : Nat) : String :=
  String.mk ((List.range 24).map (fun i => hexChar (n / 16 ^ (23 - i) % 16)))

/-- update_one on a keyed collection with an increment-style modifier:
apply f to the document at key k when it exists, otherwise change
nothing (Mongo matches no document and the update is a no-op). -/
def updateOne {α : Type} (k : String) (f : α → α) (c : Coll α) : Coll α :=
  fun k2 => if k2 = k then (c k2).map f else c k2

/-- The positional array update: modify the stats of the first element of
the players array whose player_id matches, leave the list unchanged when
none matches (the filter of update_one then matched no document). -/
def updFirst (pid : String) (f : PlayerStats → PlayerStats) :
    List TeamPlayerRecord → List TeamPlayerRecord
  | [] => []
  | e :: rest =>
    if e.player_id = pid then {e with stats := f e.stats} :: rest
    else e :: updFirst pid f rest

/-- find_one on the matches ledger: the first entry with the given id. -/
def findFirst (id : String) (l : List (String × MatchDoc)) : Option MatchDoc :=
  (l.find? (fun pr => pr.1 == id)).map (fun pr => pr.2)

/-- delete_one on the matches ledger: remove the first entry with the
given id. -/
def deleteFirst (id : String) : List (String × MatchDoc) → List (String × MatchDoc)
  | [] => []
  | e :: rest => if e.1 = id then rest else e :: deleteFirst id rest

/-- Number of ledger entries carrying a given id. -/
def countKey (id : String) (l : List (String × MatchDoc)) : Nat :=
  l.countP (fun pr => pr.1 == id)

/-- The global_inc dictionary of record_match applied to a player
document: matches_played plus one and the field matching the result plus
one.  The sub case mirrors the dictionary before any branch fires; the
caller skips sub entries so it is never reached. -/
def globalRecordInc : PResult → PlayerDoc → PlayerDoc
  | PResult.win, p => {p with matches_played := p.matches_played + 1, wins := p.wins + 1}
  | PResult.loss, p => {p with matches_played := p.matches_played + 1, loss := p.loss + 1}
  | PResult.draw, p => {p with matches_played := p.matches_played + 1, draws := p.draws + 1}
  | PResult.sub, p => {p with matches_played := p.matches_played + 1}

/-- The g_inc dictionary of rollback_match_stats applied to a player
document. -/
def globalRollbackInc : PResult → PlayerDoc → PlayerDoc
  | PResult.win, p => {p with matches_played := p.matches_played - 1, wins := p.wins - 1}
  | PResult.loss, p => {p with matches_played := p.matches_played - 1, loss := p.loss - 1}
  | PResult.draw, p => {p with matches_played := p.matches_played - 1, draws := p.draws - 1}
  | PResult.sub, p => {p with matches_played := p.matches_played - 1}

/-- The tourney_inc dictionary of record_match applied to an embedded
stats record. -/
def tournamentRecordInc : PResult → PlayerStats → PlayerStats
  | PResult.win, p => {p with matches_played := p.matches_played + 1, wins := p.wins + 1}
  | PResult.loss, p => {p with matches_played := p.matches_played + 1, loss := p.loss + 1}
  | PResult.draw, p => {p with matches_played := p.matches_played + 1, draws := p.draws + 1}
  | PResult.sub, p => {p with matches_played := p.matches_played + 1}

/-- The t_inc dictionary of rollback_match_stats applied to an embedded
stats record. -/
def tournamentRollbackInc : PResult → PlayerStats → PlayerStats
  | PResult.win, p => {p with matches_played := p.matches_played - 1, wins := p.wins - 1}
  | PResult.loss, p => {p with matches_played := p.matches_played - 1, loss := p.loss - 1}
  | PResult.draw, p => {p with matches_played := p.matches_played - 1, draws := p.draws - 1}
  | PResult.sub, p => {p with matches_played := p.matches_played - 1}

/-- The team_update_fields dictionary of record_match applied to the team
stats: matches_played plus one, points plus the awarded points, and the
outcome counter matching the team result plus one. -/
def teamStatsRecordInc (tr : TeamResult) (pts : Int) (st : TeamStats) : TeamStats :=
  match tr with
  | TeamResult.win =>
    {st with matches_played := st.matches_played + 1, points := st.points + pts,
             wins := st.wins + 1}
  | TeamResult.loss =>
    {st with matches_played := st.matches_played + 1, points := st.points + pts,
             loss := st.loss + 1}
  | TeamResult.draw =>
    {st with matches_played := st.matches_played + 1, points := st.points + pts,
             draws := st.draws + 1}

/-- The team_inc dictionary of rollback_match_stats applied to the team
stats: win takes back 3 points, draw takes back 1, loss takes back none. -/
def teamStatsRollbackInc (tr : TeamResult) (st : TeamStats) : TeamStats :=
  match tr with
  | TeamResult.win =>
    {st with matches_played := st.matches_played - 1, wins := st.wins - 1,
             points := st.points - 3}
  | TeamResult.loss =>
    {st with matches_played := st.matches_played - 1, loss := st.loss - 1}
  | TeamResult.draw =>
    {st with matches_played := st.matches_played - 1, draws := st.draws - 1,
             points := st.points - 1}

/-- A team-document update that modifies only the stats sub-document,
the shape of the team_update_fields and team_inc dictionaries. -/
def teamStatsUpd (f : TeamStats → TeamStats) (td : TeamDoc) : TeamDoc :=
  {td with stats := f td.stats}

/-- A team-document update that modifies only the tournament-scoped stats
of the first roster entry matching a player id, the shape of the
tourney_inc and t_inc positional updates. -/
def teamTournUpd (pid : String) (f : PlayerStats → PlayerStats) (td : TeamDoc) : TeamDoc :=
  {td with players := updFirst pid f td.players}

/-- Issue a stats-only increment against the team document keyed by
team_id, as teams_collection.update_one does. -/
def teamAgg (team_id : String) (f : TeamStats → TeamStats) (s : DB) : DB :=
  {s with teams := updateOne team_id (teamStatsUpd f) s.teams}

/-- One non-sub iteration of the player loop of record_match: increment
the global player document, then the tournament-scoped sub-record of the
first matching roster entry of the team. -/
def applyPlayerRecord (team_id : String) (p : PlayerResult) (s : DB) : DB :=
  {s with
    players := updateOne p.player_id (globalRecordInc p.result) s.players,
    teams := updateOne team_id (teamTournUpd p.player_id (tournamentRecordInc p.result)) s.teams}

/-- One non-sub iteration of the player loop of rollback_match_stats. -/
def applyPlayerRollback (team_id : String) (p : PlayerResult) (s : DB) : DB :=
  {s with
    players := updateOne p.player_id (globalRollbackInc p.result) s.players,
    teams := updateOne team_id (teamTournUpd p.player_id (tournamentRollbackInc p.result)) s.teams}

/-- The player loop of record_match: sub entries are skipped before any
identifier is parsed; a malformed player_id raises InvalidId from the
ObjectId constructor, leaving the updates of earlier iterations applied. -/
def playerRecordLoop (team_id : String) : List PlayerResult → DB → DB × Option Err
  | [], s => (s, none)
  | p :: rest, s =>
    if p.result = PResult.sub then playerRecordLoop team_id rest s
    else if ObjectId.isValid p.player_id then
      playerRecordLoop team_id rest (applyPlayerRecord team_id p s)
    else (s, some Err.invalidObjectId)

/-- The player loop of rollback_match_stats, the exact mirror of the
record loop with decrements. -/
def playerRollbackLoop (team_id : String) : List PlayerResult → DB → DB × Option Err
  | [], s => (s, none)
  | p :: rest, s =>
    if p.result = PResult.sub then playerRollbackLoop team_id rest s
    else if ObjectId.isValid p.player_id then
      playerRollbackLoop team_id rest (applyPlayerRollback team_id p s)
    else (s, some Err.invalidObjectId)

/-- Section A of record_match: count win and loss entries with one pass,
then resolve the team result and points with the default draw and 1. -/
def resolveOutcome (l : List PlayerResult) : TeamResult × Int :=
  let counts := l.foldl
    (fun (acc : Nat × Nat) p =>
      if p.result = PResult.win then (acc.1 + 1, acc.2)
      else if p.result = PResult.loss then (acc.1, acc.2 + 1)
      else acc)
    (0, 0)
  if counts.1 > counts.2 then (TeamResult.win, 3)
  else if counts.2 > counts.1 then (TeamResult.loss, 0)
  else (TeamResult.draw, 1)

/-- Rendering of the team result as stored and returned by the routes. -/
def teamResultStr : TeamResult → String
  | TeamResult.win => "win"
  | TeamResult.loss => "loss"
  | TeamResult.draw => "draw"

/-- The match_doc persisted by record_match and update_match: the input
fields plus calculated_team_result. -/
def mkMatchDoc (m : MatchCreate) (tr : TeamResult) : MatchDoc :=
  {tournament_id := m.tournament_id, team_id := m.team_id,
   opponent_name := m.opponent_name, player_results := m.player_results,
   calculated_team_result := tr}

/-- rollback_match_stats from src/main.py: reverse the team stats keyed
by the stored team_id, then reverse each non-sub stored player result at
global and tournament scope.  A malformed stored team_id raises from the
ObjectId constructor before any write. -/
def rollbackMatchStats (doc : MatchDoc) (s : DB) : DB × Option Err :=
  if ObjectId.isValid doc.team_id then
    playerRollbackLoop doc.team_id doc.player_results
      (teamAgg doc.team_id (teamStatsRollbackInc doc.calculated_team_result) s)
  else (s, some Err.invalidObjectId)

/-- record_match from src/main.py.  Order is the source order: resolve
the outcome, insert the ledger entry (minting a fresh id), then parse
team_id, update the team stats, and run the player loop.  The response
dictionary carries only message and team_result. -/
def recordMatch (m : MatchCreate) (s : DB) : DB × Except Err (List (String × String)) :=
  let res := resolveOutcome m.player_results
  let s1 : DB :=
    {s with matches_collection := s.matches_collection ++ [(freshOid s.fresh, mkMatchDoc m res.1)],
            fresh := s.fresh + 1}
  if ObjectId.isValid m.team_id then
    match playerRecordLoop m.team_id m.player_results
        (teamAgg m.team_id (teamStatsRecordInc res.1 res.2) s1) with
    | (s3, none) =>
      (s3, Except.ok [("message", "Match recorded"), ("team_result", teamResultStr res.1)])
    | (s3, some e) => (s3, Except.error e)
  else (s1, Except.error Err.invalidObjectId)

/-- delete_match from src/main.py: validate the id, fetch the ledger
entry (404 when absent), roll its stats back, then delete the entry. -/
def deleteMatch (id : String) (s : DB) : DB × Except Err (List (String × String)) :=
  if ObjectId.isValid id then
    match findFirst id s.matches_collection with
    | none => (s, Except.error Err.notFound)
    | some doc =>
      match rollbackMatchStats doc s with
      | (s1, some e) => (s1, Except.error e)
      | (s1, none) =>
        ({s1 with matches_collection := deleteFirst id s1.matches_collection},
         Except.ok [("message", "Match deleted and stats rolled back")])
  else (s, Except.error Err.badRequest)

/-- update_match from src/main.py: validate the id, fetch the old entry,
roll back its stats, delete it, then re-run the record logic for the new
input, inserting the new ledger entry under the old id. -/
def updateMatch (id : String) (m : MatchCreate) (s : DB) :
    DB × Except Err (List (String × String)) :=
  if ObjectId.isValid id then
    match findFirst id s.matches_collection with
    | none => (s, Except.error Err.notFound)
    | some old =>
      match rollbackMatchStats old s with
      | (s1, some e) => (s1, Except.error e)
      | (s1, none) =>
        let res := resolveOutcome m.player_results
        let s3 : DB :=
          {s1 with matches_collection := deleteFirst id s1.matches_collection ++ [(id, mkMatchDoc m res.1)]}
        if ObjectId.isValid m.team_id then
          match playerRecordLoop m.team_id m.player_results
              (teamAgg m.team_id (teamStatsRecordInc res.1 res.2) s3) with
          | (s5, none) => (s5, Except.ok [("message", "Match updated successfully")])
          | (s5, some e) => (s5, Except.error e)
        else (s3, Except.error Err.invalidObjectId)
  else (s, Except.error Err.badRequest)

/-- The read view built by player_helper. -/
structure PlayerView where
  id : String
  name : String
  dob : String
  instagram_link : Option String
  facebook_link : Option String
  photo_url : String
  matches_played : Int
  wins : Int
  draws : Int
  loss : Int
  unbeaten_percentage : ℚ

/-- Rounding to two decimal places, modelling the Python builtin
round(x, 2); ties are modelled with the mathlib round. -/
def round2 (q : ℚ) : ℚ := (round (q * 100) : ℚ) / 100

/-- player_helper from src/main.py: serialize a stored player document,
deriving unbeaten_percentage at read time. -/
def player_helper (id : String) (player : PlayerDoc) : PlayerView :=
  let matchesPlayed := player.matches_played
  let wins := player.wins
  let draws := player.draws
  let loss := player.loss
  let unbeaten_pct : ℚ :=
    if 0 < matchesPlayed then round2 (((wins : ℚ) + (draws : ℚ)) / (matchesPlayed : ℚ) * 100)
    else 0
  {id := id, name := player.name, dob := player.dob,
   instagram_link := player.instagram_link, facebook_link := player.facebook_link,
   photo_url := "/players/" ++ id ++ "/photo",
   matches_played := matchesPlayed, wins := wins, draws := draws, loss := loss,
   unbeaten_percentage := unbeaten_pct}

/-! Algebra of the keyed update primitives. -/

lemma updateOne_comp {α : Type} (k : String) (f g : α → α) (c : Coll α) :
    updateOne k f (updateOne k g c) = updateOne k (fun x => f (g x)) c := by
  funext k2
  by_cases h : k2 = k
  · simp only [updateOne, h, if_pos rfl]
    cases c k <;> simp
  · simp [updateOne, h]

lemma updateOne_id {α : Type} (k : String) (c : Coll α) :
    updateOne k (fun x => x) c = c := by
  funext k2
  by_cases h : k2 = k <;> simp [updateOne, h]

lemma updateOne_comm {α : Type} (k k2 : String) (f g : α → α)
    (h : ∀ x, f (g x) = g (f x)) (c : Coll α) :
    updateOne k f (updateOne k2 g c) = updateOne k2 g (updateOne k f c) := by
  by_cases hk : k = k2
  · subst hk
    rw [updateOne_comp, updateOne_comp]
    have hfg : (fun x => f (g x)) = (fun x => g (f x)) := funext h
    rw [hfg]
  · funext k3
    by_cases h1 : k3 = k
    · by_cases h2 : k3 = k2
      · exact absurd (h1.symm.trans h2) hk
      · simp [updateOne, h1, h2, hk]
    · by_cases h2 : k3 = k2 <;> simp [updateOne, h1, h2, hk, Ne.symm hk]

lemma updateOne_of_none {α : Type} (k : String) (f : α → α) (c : Coll α)
    (h : c k = none) : updateOne k f c = c := by
  funext k2
  by_cases h1 : k2 = k <;> simp [updateOne, h1, h]

lemma updFirst_player_id (pid : String) (f : PlayerStats → PlayerStats)
    (l : List TeamPlayerRecord) :
    (updFirst pid f l).map (fun e => e.player_id) = l.map (fun e => e.player_id) := by
  induction l with
  | nil => rfl
  | cons e rest ih =>
    by_cases h : e.player_id = pid <;> simp [updFirst, h, ih]

lemma updFirst_comp (pid : String) (f g : PlayerStats → PlayerStats)
    (l : List TeamPlayerRecord) :
    updFirst pid f (updFirst pid g l) = updFirst pid (fun x => f (g x)) l := by
  induction l with
  | nil => rfl
  | cons e rest ih =>
    by_cases h : e.player_id = pid <;> simp [updFirst, h, ih]

lemma updFirst_id (pid : String) (l : List TeamPlayerRecord) :
    updFirst pid (fun x => x) l = l := by
  induction l with
  | nil => rfl
  | cons e rest ih =>
    obtain ⟨epid, ename, estats⟩ := e
    by_cases h : epid = pid <;> simp [updFirst, h, ih]

lemma updFirst_comm (p1 p2 : String) (f g : PlayerStats → PlayerStats)
    (h : ∀ x, f (g x) = g (f x)) (l : List TeamPlayerRecord) :
    updFirst p1 f (updFirst p2 g l) = updFirst p2 g (updFirst p1 f l) := by
  induction l with
  | nil => rfl
  | cons e rest ih =>
    obtain ⟨epid, ename, estats⟩ := e
    by_cases h1 : epid = p1
    · subst h1
      by_cases h2 : epid = p2
      · subst h2
        simp [updFirst, h estats]
      · simp [updFirst, h2]
    · by_cases h2 : epid = p2
      · subst h2
        simp [updFirst, h1]
      · simp [updFirst, h1, h2, ih]

/-! Cancellation and commutation of the increment dictionaries. -/

lemma globalRollbackInc_globalRecordInc (r : PResult) (p : PlayerDoc) :
    globalRollbackInc r (globalRecordInc r p) = p := by
  cases r <;> simp [globalRecordInc, globalRollbackInc]

lemma tournamentRollbackInc_tournamentRecordInc (r : PResult) (p : PlayerStats) :
    tournamentRollbackInc r (tournamentRecordInc r p) = p := by
  cases r <;> simp [tournamentRecordInc, tournamentRollbackInc]

lemma globalInc_comm (r1 r2 : PResult) (p : PlayerDoc) :
    globalRollbackInc r1 (globalRecordInc r2 p) = globalRecordInc r2 (globalRollbackInc r1 p) := by
  cases r1 <;> cases r2 <;> simp [globalRecordInc, globalRollbackInc]

lemma tournamentInc_comm (r1 r2 : PResult) (p : PlayerStats) :
    tournamentRollbackInc r1 (tournamentRecordInc r2 p) =
      tournamentRecordInc r2 (tournamentRollbackInc r1 p) := by
  cases r1 <;> cases r2 <;> simp [tournamentRecordInc, tournamentRollbackInc]

/-- The points the resolver pairs with each team result. -/
def pointsFor : TeamResult → Int
  | TeamResult.win => 3
  | TeamResult.loss => 0
  | TeamResult.draw => 1

lemma resolveOutcome_points (l : List PlayerResult) :
    (resolveOutcome l).2 = pointsFor (resolveOutcome l).1 := by
  have aux : ∀ a b : Nat,
      ((if a > b then (TeamResult.win, (3 : Int))
        else if b > a then (TeamResult.loss, 0) else (TeamResult.draw, 1)).2) =
      pointsFor ((if a > b then (TeamResult.win, (3 : Int))
        else if b > a then (TeamResult.loss, 0) else (TeamResult.draw, 1)).1) := by
    intro a b
    by_cases h1 : a > b <;> by_cases h2 : b > a <;> simp [h1, h2, pointsFor]
  exact aux _ _

lemma teamStats_cancel (tr : TeamResult) (st : TeamStats) :
    teamStatsRollbackInc tr (teamStatsRecordInc tr (pointsFor tr) st) = st := by
  cases tr <;> simp [teamStatsRecordInc, teamStatsRollbackInc, pointsFor]

/-! Commutation and cancellation at the team-document level. -/

lemma teamTournUpd_comm (p1 p2 : String) (f g : PlayerStats → PlayerStats)
    (h : ∀ x, f (g x) = g (f x)) (td : TeamDoc) :
    teamTournUpd p1 f (teamTournUpd p2 g td) = teamTournUpd p2 g (teamTournUpd p1 f td) := by
  obtain ⟨n, t, st, pls⟩ := td
  simp [teamTournUpd, updFirst_comm p1 p2 f g h]

lemma teamTournUpd_cancel (pid : String) (f g : PlayerStats → PlayerStats)
    (h : ∀ x, f (g x) = x) (td : TeamDoc) :
    teamTournUpd pid f (teamTournUpd pid g td) = td := by
  obtain ⟨n, t, st, pls⟩ := td
  simp only [teamTournUpd, updFirst_comp]
  have hfg : (fun x => f (g x)) = (fun x => x) := funext h
  simp [hfg, updFirst_id]

lemma teamStatsUpd_teamTournUpd_comm (f : TeamStats → TeamStats) (pid : String)
    (g : PlayerStats → PlayerStats) (td : TeamDoc) :
    teamStatsUpd f (teamTournUpd pid g td) = teamTournUpd pid g (teamStatsUpd f td) := by
  obtain ⟨n, t, st, pls⟩ := td
  simp [teamStatsUpd, teamTournUpd]

lemma teamStatsUpd_cancel (f g : TeamStats → TeamStats) (h : ∀ x, f (g x) = x)
    (td : TeamDoc) : teamStatsUpd f (teamStatsUpd g td) = td := by
  obtain ⟨n, t, st, pls⟩ := td
  simp [teamStatsUpd, h]

/-! The player loops as pure folds, on inputs whose identifiers all parse. -/

/-- One iteration of the record player loop as a pure state transform. -/
def recStep (team_id : String) (s : DB) (p : PlayerResult) : DB :=
  if p.result = PResult.sub then s else applyPlayerRecord team_id p s

/-- One iteration of the rollback player loop as a pure state transform. -/
def rbStep (team_id : String) (s : DB) (p : PlayerResult) : DB :=
  if p.result = PResult.sub then s else applyPlayerRollback team_id p s

/-- The record player loop as a pure fold. -/
def recFold (team_id : String) (l : List PlayerResult) (s : DB) : DB :=
  l.foldl (recStep team_id) s

/-- The rollback player loop as a pure fold. -/
def rbFold (team_id : String) (l : List PlayerResult) (s : DB) : DB :=
  l.foldl (rbStep team_id) s

/-- Every non-sub entry of the list carries a parseable ObjectId. -/
def validResults (l : List PlayerResult) : Prop :=
  ∀ p ∈ l, p.result ≠ PResult.sub → ObjectId.isValid p.player_id = true

instance validResults_decidable (l : List PlayerResult) : Decidable (validResults l) := by
  unfold validResults
  infer_instance

/-- A match submission whose team id and non-sub player ids all parse as
ObjectIds, so every store call of the accrual sequence is reached. -/
def MatchCreate.validInput (m : MatchCreate) : Prop :=
  ObjectId.isValid m.team_id = true ∧ validResults m.player_results

instance (m : MatchCreate) : Decidable m.validInput := by
  unfold MatchCreate.validInput
  infer_instance

/-- A stored ledger entry whose identifiers all parse, as any entry
written by the accrual path of this program is. -/
def MatchDoc.validStored (d : MatchDoc) : Prop :=
  ObjectId.isValid d.team_id = true ∧ validResults d.player_results

instance (d : MatchDoc) : Decidable d.validStored := by
  unfold MatchDoc.validStored
  infer_instance

lemma playerRecordLoop_eq_fold (team_id : String) (l : List PlayerResult) (s : DB)
    (h : validResults l) :
    playerRecordLoop team_id l s = (recFold team_id l s, none) := by
  induction l generalizing s with
  | nil => rfl
  | cons p rest ih =>
    have hrest : validResults rest := fun q hq => h q (List.mem_cons_of_mem p hq)
    by_cases hp : p.result = PResult.sub
    · simp [playerRecordLoop, recFold, List.foldl_cons, recStep, hp, ih _ hrest]
    · have hv : ObjectId.isValid p.player_id = true := h p (List.mem_cons_self p rest) hp
      simp [playerRecordLoop, recFold, List.foldl_cons, recStep, hp, hv, ih _ hrest]

lemma playerRollbackLoop_eq_fold (team_id : String) (l : List PlayerResult) (s : DB)
    (h : validResults l) :
    playerRollbackLoop team_id l s = (rbFold team_id l s, none) := by
  induction l generalizing s with
  | nil => rfl
  | cons p rest ih =>
    have hrest : validResults rest := fun q hq => h q (List.mem_cons_of_mem p hq)
    by_cases hp : p.result = PResult.sub
    · simp [playerRollbackLoop, rbFold, List.foldl_cons, rbStep, hp, ih _ hrest]
    · have hv : ObjectId.isValid p.player_id = true := h p (List.mem_cons_self p rest) hp
      simp [playerRollbackLoop, rbFold, List.foldl_cons, rbStep, hp, hv, ih _ hrest]

/-! Commutation of the per-entry updates: every store write is a keyed
increment, so any two of them commute. -/

lemma applyRollback_applyRecord_comm (team_id : String) (p q : PlayerResult) (s : DB) :
    applyPlayerRollback team_id p (applyPlayerRecord team_id q s) =
      applyPlayerRecord team_id q (applyPlayerRollback team_id p s) := by
  obtain ⟨P, T, Tor, M, F⟩ := s
  simp only [applyPlayerRecord, applyPlayerRollback]
  rw [updateOne_comm p.player_id q.player_id _ _
        (fun x => globalInc_comm p.result q.result x),
      updateOne_comm team_id team_id _ _
        (fun td => teamTournUpd_comm p.player_id q.player_id _ _
          (fun x => tournamentInc_comm p.result q.result x) td)]

lemma rbStep_recStep_comm (team_id : String) (p q : PlayerResult) (s : DB) :
    rbStep team_id (recStep team_id s q) p = recStep team_id (rbStep team_id s p) q := by
  unfold rbStep recStep
  by_cases hp : p.result = PResult.sub <;> by_cases hq : q.result = PResult.sub <;>
    simp [hp, hq, applyRollback_applyRecord_comm]

lemma rbStep_recStep_cancel (team_id : String) (p : PlayerResult) (s : DB) :
    rbStep team_id (recStep team_id s p) p = s := by
  unfold rbStep recStep
  by_cases hp : p.result = PResult.sub
  · simp [hp]
  · simp only [if_neg hp]
    obtain ⟨P, T, Tor, M, F⟩ := s
    simp only [applyPlayerRecord, applyPlayerRollback]
    rw [updateOne_comp, updateOne_comp]
    have h1 : (fun x => globalRollbackInc p.result (globalRecordInc p.result x)) =
        (fun x : PlayerDoc => x) :=
      funext (fun x => globalRollbackInc_globalRecordInc p.result x)
    have h2 : (fun td => teamTournUpd p.player_id (tournamentRollbackInc p.result)
        (teamTournUpd p.player_id (tournamentRecordInc p.result) td)) =
        (fun td : TeamDoc => td) :=
      funext (fun td => teamTournUpd_cancel p.player_id _ _
        (fun x => tournamentRollbackInc_tournamentRecordInc p.result x) td)
    rw [h1, h2, updateOne_id, updateOne_id]

lemma rbStep_recFold_comm (team_id : String) (p : PlayerResult) (l : List PlayerResult)
    (s : DB) :
    rbStep team_id (recFold team_id l s) p = recFold team_id l (rbStep team_id s p) := by
  induction l generalizing s with
  | nil => rfl
  | cons q rest ih =>
    show rbStep team_id (recFold team_id rest (recStep team_id s q)) p =
      recFold team_id rest (recStep team_id (rbStep team_id s p) q)
    rw [ih, rbStep_recStep_comm]

lemma rbFold_recFold_cancel (team_id : String) (l : List PlayerResult) (s : DB) :
    rbFold team_id l (recFold team_id l s) = s := by
  induction l generalizing s with
  | nil => rfl
  | cons p rest ih =>
    show rbFold team_id rest
      (rbStep team_id (recFold team_id rest (recStep team_id s p)) p) = s
    rw [rbStep_recFold_comm, rbStep_recStep_cancel, ih]

/-! The team-level increment commutes past the player folds and cancels
against its own record counterpart. -/

lemma teamAgg_recStep_comm (team_id : String) (f : TeamStats → TeamStats)
    (p : PlayerResult) (s : DB) :
    recStep team_id (teamAgg team_id f s) p = teamAgg team_id f (recStep team_id s p) := by
  unfold recStep
  by_cases hp : p.result = PResult.sub
  · simp [hp]
  · simp only [if_neg hp]
    obtain ⟨P, T, Tor, M, F⟩ := s
    simp only [applyPlayerRecord, teamAgg]
    rw [updateOne_comm team_id team_id _ _
      (fun td => (teamStatsUpd_teamTournUpd_comm f p.player_id _ td).symm)]

lemma teamAgg_recFold_comm (team_id : String) (f : TeamStats → TeamStats)
    (l : List PlayerResult) (s : DB) :
    recFold team_id l (teamAgg team_id f s) = teamAgg team_id f (recFold team_id l s) := by
  induction l generalizing s with
  | nil => rfl
  | cons p rest ih =>
    show recFold team_id rest (recStep team_id (teamAgg team_id f s) p) =
      teamAgg team_id f (recFold team_id rest (recStep team_id s p))
    rw [teamAgg_recStep_comm, ih]

lemma teamAgg_cancel (team_id : String) (f g : TeamStats → TeamStats)
    (h : ∀ x, f (g x) = x) (s : DB) :
    teamAgg team_id f (teamAgg team_id g s) = s := by
  obtain ⟨P, T, Tor, M, F⟩ := s
  simp only [teamAgg]
  rw [updateOne_comp]
  have h2 : (fun td => teamStatsUpd f (teamStatsUpd g td)) = (fun td : TeamDoc => td) :=
    funext (fun td => teamStatsUpd_cancel f g h td)
  rw [h2, updateOne_id]

/-! Minted identifiers are valid ObjectIds; ledger list facts. -/

lemma hexChar_ok (d : Nat) (h : d < 16) :
    ((hexChar d).isDigit || (97 ≤ (hexChar d).toNat && (hexChar d).toNat ≤ 102) ||
      (65 ≤ (hexChar d).toNat && (hexChar d).toNat ≤ 70)) = true := by
  have hall : ∀ e : Nat, e < 16 →
      ((hexChar e).isDigit || (97 ≤ (hexChar e).toNat && (hexChar e).toNat ≤ 102) ||
        (65 ≤ (hexChar e).toNat && (hexChar e).toNat ≤ 70)) = true := by decide
  exact hall d h

lemma freshOid_isValid (n : Nat) : ObjectId.isValid (freshOid n) = true := by
  unfold ObjectId.isValid freshOid
  rw [Bool.and_eq_true]
  constructor
  · show ((((List.range 24).map _).length : Nat) == 24) = true
    simp
  · rw [List.all_eq_true]
    intro c hc
    rw [List.mem_map] at hc
    obtain ⟨i, _, rfl⟩ := hc
    exact hexChar_ok _ (Nat.mod_lt _ (by norm_num))

lemma findFirst_cons (id : String) (e : String × MatchDoc) (rest : List (String × MatchDoc)) :
    findFirst id (e :: rest) = if e.1 = id then some e.2 else findFirst id rest := by
  by_cases he : e.1 = id
  · simp [findFirst, List.find?, he]
  · have hb : (e.1 == id) = false := by simp [he]
    simp [findFirst, List.find?, hb, he]

lemma findFirst_append_self (id : String) (d : MatchDoc) (l : List (String × MatchDoc))
    (h : findFirst id l = none) : findFirst id (l ++ [(id, d)]) = some d := by
  induction l with
  | nil => simp [findFirst, List.find?]
  | cons e rest ih =>
    rw [findFirst_cons] at h
    by_cases he : e.1 = id
    · rw [if_pos he] at h
      exact absurd h (by simp)
    · rw [if_neg he] at h
      rw [List.cons_append, findFirst_cons, if_neg he]
      exact ih h

lemma deleteFirst_append_self (id : String) (d : MatchDoc) (l : List (String × MatchDoc))
    (h : findFirst id l = none) : deleteFirst id (l ++ [(id, d)]) = l := by
  induction l with
  | nil => simp [deleteFirst]
  | cons e rest ih =>
    rw [findFirst_cons] at h
    by_cases he : e.1 = id
    · rw [if_pos he] at h
      exact absurd h (by simp)
    · rw [if_neg he] at h
      show (if e.1 = id then rest ++ [(id, d)]
        else e :: deleteFirst id (rest ++ [(id, d)])) = e :: rest
      rw [if_neg he, ih h]

/-! The player folds touch only the players and teams collections. -/

lemma recStep_matches (team_id : String) (s : DB) (p : PlayerResult) :
    (recStep team_id s p).matches_collection = s.matches_collection := by
  unfold recStep
  split <;> rfl

lemma recStep_fresh (team_id : String) (s : DB) (p : PlayerResult) :
    (recStep team_id s p).fresh = s.fresh := by
  unfold recStep
  split <;> rfl

lemma recStep_tournaments (team_id : String) (s : DB) (p : PlayerResult) :
    (recStep team_id s p).tournaments = s.tournaments := by
  unfold recStep
  split <;> rfl

lemma rbStep_matches (team_id : String) (s : DB) (p : PlayerResult) :
    (rbStep team_id s p).matches_collection = s.matches_collection := by
  unfold rbStep
  split <;> rfl

lemma rbStep_fresh (team_id : String) (s : DB) (p : PlayerResult) :
    (rbStep team_id s p).fresh = s.fresh := by
  unfold rbStep
  split <;> rfl

lemma rbStep_tournaments (team_id : String) (s : DB) (p : PlayerResult) :
    (rbStep team_id s p).tournaments = s.tournaments := by
  unfold rbStep
  split <;> rfl

lemma recFold_matches (team_id : String) (l : List PlayerResult) (s : DB) :
    (recFold team_id l s).matches_collection = s.matches_collection := by
  induction l generalizing s with
  | nil => rfl
  | cons p rest ih =>
    show (recFold team_id rest (recStep team_id s p)).matches_collection = _
    rw [ih, recStep_matches]

lemma recFold_fresh (team_id : String) (l : List PlayerResult) (s : DB) :
    (recFold team_id l s).fresh = s.fresh := by
  induction l generalizing s with
  | nil => rfl
  | cons p rest ih =>
    show (recFold team_id rest (recStep team_id s p)).fresh = _
    rw [ih, recStep_fresh]

lemma recFold_tournaments (team_id : String) (l : List PlayerResult) (s : DB) :
    (recFold team_id l s).tournaments = s.tournaments := by
  induction l generalizing s with
  | nil => rfl
  | cons p rest ih =>
    show (recFold team_id rest (recStep team_id s p)).tournaments = _
    rw [ih, recStep_tournaments]

lemma rbFold_matches (team_id : String) (l : List PlayerResult) (s : DB) :
    (rbFold team_id l s).matches_collection = s.matches_collection := by
  induction l generalizing s with
  | nil => rfl
  | cons p rest ih =>
    show (rbFold team_id rest (rbStep team_id s p)).matches_collection = _
    rw [ih, rbStep_matches]

lemma rbFold_fresh (team_id : String) (l : List PlayerResult) (s : DB) :
    (rbFold team_id l s).fresh = s.fresh := by
  induction l generalizing s with
  | nil => rfl
  | cons p rest ih =>
    show (rbFold team_id rest (rbStep team_id s p)).fresh = _
    rw [ih, rbStep_fresh]

lemma rbFold_tournaments (team_id : String) (l : List PlayerResult) (s : DB) :
    (rbFold team_id l s).tournaments = s.tournaments := by
  induction l generalizing s with
  | nil => rfl
  | cons p rest ih =>
    show (rbFold team_id rest (rbStep team_id s p)).tournaments = _
    rw [ih, rbStep_tournaments]

/-! Normal forms of the routes on inputs whose identifiers parse. -/

lemma recordMatch_eq_of_valid (m : MatchCreate) (s : DB) (h : m.validInput) :
    recordMatch m s =
      (recFold m.team_id m.player_results
        (teamAgg m.team_id
          (teamStatsRecordInc (resolveOutcome m.player_results).1
            (resolveOutcome m.player_results).2)
          {s with
            matches_collection :=
              s.matches_collection ++
                [(freshOid s.fresh, mkMatchDoc m (resolveOutcome m.player_results).1)],
            fresh := s.fresh + 1}),
       Except.ok [("message", "Match recorded"),
         ("team_result", teamResultStr (resolveOutcome m.player_results).1)]) := by
  unfold recordMatch
  dsimp only
  rw [playerRecordLoop_eq_fold _ _ _ h.2]
  simp [h.1]

lemma rollbackMatchStats_eq_fold (doc : MatchDoc) (s : DB) (h : doc.validStored) :
    rollbackMatchStats doc s =
      (rbFold doc.team_id doc.player_results
        (teamAgg doc.team_id (teamStatsRollbackInc doc.calculated_team_result) s),
       none) := by
  unfold rollbackMatchStats
  rw [playerRollbackLoop_eq_fold _ _ _ h.2]
  simp [h.1]

lemma deleteMatch_after_record (m : MatchCreate) (s : DB) (hv : m.validInput)
    (hf : findFirst (freshOid s.fresh) s.matches_collection = none) :
    deleteMatch (freshOid s.fresh) (recordMatch m s).1 =
      ({s with fresh := s.fresh + 1},
       Except.ok [("message", "Match deleted and stats rolled back")]) := by
  obtain ⟨hteam, hres⟩ := hv
  have hpts := resolveOutcome_points m.player_results
  rw [recordMatch_eq_of_valid m s ⟨hteam, hres⟩]
  dsimp only
  set S3 := recFold m.team_id m.player_results
    (teamAgg m.team_id
      (teamStatsRecordInc (resolveOutcome m.player_results).1
        (resolveOutcome m.player_results).2)
      {s with
        matches_collection :=
          s.matches_collection ++
            [(freshOid s.fresh, mkMatchDoc m (resolveOutcome m.player_results).1)],
        fresh := s.fresh + 1}) with hS3
  have hm3 : S3.matches_collection =
      s.matches_collection ++
        [(freshOid s.fresh, mkMatchDoc m (resolveOutcome m.player_results).1)] := by
    rw [hS3, recFold_matches]
    rfl
  have hfind : findFirst (freshOid s.fresh) S3.matches_collection =
      some (mkMatchDoc m (resolveOutcome m.player_results).1) := by
    rw [hm3]
    exact findFirst_append_self _ _ _ hf
  have hdv : (mkMatchDoc m (resolveOutcome m.player_results).1).validStored := ⟨hteam, hres⟩
  have hcancel : rbFold m.team_id m.player_results
      (teamAgg m.team_id (teamStatsRollbackInc (resolveOutcome m.player_results).1) S3) =
      {s with
        matches_collection :=
          s.matches_collection ++
            [(freshOid s.fresh, mkMatchDoc m (resolveOutcome m.player_results).1)],
        fresh := s.fresh + 1} := by
    rw [hS3, ← teamAgg_recFold_comm]
    rw [teamAgg_cancel _ _ _ (fun x => by rw [hpts]; exact teamStats_cancel _ x)]
    exact rbFold_recFold_cancel _ _ _
  have hdel : deleteFirst (freshOid s.fresh)
      (s.matches_collection ++
        [(freshOid s.fresh, mkMatchDoc m (resolveOutcome m.player_results).1)]) =
      s.matches_collection :=
    deleteFirst_append_self _ _ _ hf
  unfold deleteMatch
  rw [freshOid_isValid]
  simp only [if_true]
  rw [hfind]
  dsimp only
  rw [rollbackMatchStats_eq_fold _ _ hdv]
  simp only [mkMatchDoc]
  rw [hcancel]
  simp [hdel]

/-- Claim C1: for every valid match input and any aggregate state, rolling
back the ledger entry written by record restores every touched counter:
the final players and teams collections, and the ledger itself, equal
their pre-record values exactly (only the minted-id counter advanced). -/
theorem claim_C1_rollback_inverts_record (m : MatchCreate) (s : DB)
    (hv : m.validInput)
    (hf : findFirst (freshOid s.fresh) s.matches_collection = none) :
    (∃ resp, (recordMatch m s).2 = Except.ok resp) ∧
    deleteMatch (freshOid s.fresh) (recordMatch m s).1 =
      ({s with fresh := s.fresh + 1},
       Except.ok [("message", "Match deleted and stats rolled back")]) := by
  constructor
  · rw [recordMatch_eq_of_valid m s hv]
    exact ⟨_, rfl⟩
  · exact deleteMatch_after_record m s hv hf

/-! Concrete fixtures used by the witness theorems. -/

/-- A valid 24 hex character team id. -/
def wTeamId : String := "0123456789abcdef01234567"

/-- A valid player id. -/
def wP1 : String := "aaaaaaaaaaaaaaaaaaaaaaaa"

/-- A second valid player id. -/
def wP2 : String := "bbbbbbbbbbbbbbbbbbbbbbbb"

/-- A concrete match submission: one win and one sub. -/
def wMatch : MatchCreate :=
  {tournament_id := "cccccccccccccccccccccccc", team_id := wTeamId,
   opponent_name := "Rivals FC",
   player_results := [{player_id := wP1, result := PResult.win},
                      {player_id := wP2, result := PResult.sub}]}

/-- A concrete team document with a roster entry for wP1. -/
def wTeamDoc : TeamDoc :=
  {name := "Xenon", tournament_id := "cccccccccccccccccccccccc",
   stats := {matches_played := 2, wins := 1, draws := 1, loss := 0, points := 4},
   players := [{player_id := wP1, name := "P One",
                stats := {matches_played := 2, wins := 1, draws := 1, loss := 0}}]}

/-- A concrete global player document. -/
def wPlayerDoc : PlayerDoc :=
  {name := "P One", dob := "2000-01-01", instagram_link := none,
   facebook_link := none, matches_played := 5, wins := 2, draws := 2, loss := 1}

/-- A concrete database state with one player and one team. -/
def wDB : DB :=
  {players := fun k => if k = wP1 then some wPlayerDoc else none,
   teams := fun k => if k = wTeamId then some wTeamDoc else none,
   tournaments := fun _ => none,
   matches_collection := [],
   fresh := 0}

theorem claim_C1_witness :
    (wMatch.validInput ∧ findFirst (freshOid wDB.fresh) wDB.matches_collection = none) ∧
    ((∃ resp, (recordMatch wMatch wDB).2 = Except.ok resp) ∧
      deleteMatch (freshOid wDB.fresh) (recordMatch wMatch wDB).1 =
        ({wDB with fresh := wDB.fresh + 1},
         Except.ok [("message", "Match deleted and stats rolled back")])) :=
  ⟨⟨by decide, rfl⟩,
   claim_C1_rollback_inverts_record wMatch wDB (by decide) rfl⟩

/-! Claim C2: the outcome resolver. -/

lemma resolveCounts (l : List PlayerResult) (a b : Nat) :
    l.foldl (fun (acc : Nat × Nat) p =>
      if p.result = PResult.win then (acc.1 + 1, acc.2)
      else if p.result = PResult.loss then (acc.1, acc.2 + 1)
      else acc) (a, b) =
    (a + (l.filter (fun p => p.result == PResult.win)).length,
     b + (l.filter (fun p => p.result == PResult.loss)).length) := by
  induction l generalizing a b with
  | nil => simp
  | cons p rest ih =>
    by_cases hw : p.result = PResult.win
    · simp [List.foldl_cons, List.filter_cons, hw, ih, Prod.ext_iff]
      omega
    · by_cases hl : p.result = PResult.loss
      · simp [List.foldl_cons, List.filter_cons, hw, hl, ih, Prod.ext_iff]
        omega
      · simp [List.foldl_cons, List.filter_cons, hw, hl, ih]

/-- Claim C2: with w the count of win entries and l the count of loss
entries (sub entries never counted), record resolves to (win, 3) when
w exceeds l, (loss, 0) when l exceeds w, and (draw, 1) otherwise,
including for empty, all-sub and all-draw lists. -/
theorem claim_C2_outcome_resolver (l : List PlayerResult) :
    resolveOutcome l =
      (if (l.filter (fun p => p.result == PResult.win)).length >
          (l.filter (fun p => p.result == PResult.loss)).length then (TeamResult.win, 3)
       else if (l.filter (fun p => p.result == PResult.loss)).length >
          (l.filter (fun p => p.result == PResult.win)).length then (TeamResult.loss, 0)
       else (TeamResult.draw, 1)) := by
  unfold resolveOutcome
  dsimp only
  rw [resolveCounts]
  simp

/-! Claim C6: sub entries contribute no delta at all. -/

lemma playerRecordLoop_filter_sub (team_id : String) (l : List PlayerResult) (s : DB) :
    playerRecordLoop team_id l s =
      playerRecordLoop team_id (l.filter (fun p => !(p.result == PResult.sub))) s := by
  induction l generalizing s with
  | nil => rfl
  | cons p rest ih =>
    by_cases hp : p.result = PResult.sub
    · have hb : (!(p.result == PResult.sub)) = false := by simp [hp]
      simp [playerRecordLoop, List.filter_cons, hp, hb, ih]
    · have hb : (!(p.result == PResult.sub)) = true := by simp [hp]
      by_cases hvp : ObjectId.isValid p.player_id = true
      · simp [playerRecordLoop, List.filter_cons, hp, hb, hvp, ih]
      · have hv2 : ObjectId.isValid p.player_id = false := by simpa using hvp
        simp [playerRecordLoop, List.filter_cons, hp, hb, hv2]

lemma playerRollbackLoop_filter_sub (team_id : String) (l : List PlayerResult) (s : DB) :
    playerRollbackLoop team_id l s =
      playerRollbackLoop team_id (l.filter (fun p => !(p.result == PResult.sub))) s := by
  induction l generalizing s with
  | nil => rfl
  | cons p rest ih =>
    by_cases hp : p.result = PResult.sub
    · have hb : (!(p.result == PResult.sub)) = false := by simp [hp]
      simp [playerRollbackLoop, List.filter_cons, hp, hb, ih]
    · have hb : (!(p.result == PResult.sub)) = true := by simp [hp]
      by_cases hvp : ObjectId.isValid p.player_id = true
      · simp [playerRollbackLoop, List.filter_cons, hp, hb, hvp, ih]
      · have hv2 : ObjectId.isValid p.player_id = false := by simpa using hvp
        simp [playerRollbackLoop, List.filter_cons, hp, hb, hv2]

/-- Claim C6: a sub result changes none of that player's counters under
record or rollback: the loops skip a sub head entirely, and each loop
equals itself run on the list with all sub entries filtered out, so only
non-sub entries contribute deltas at either scope. -/
theorem claim_C6_sub_excluded (team_id pid : String) (rest : List PlayerResult) (s : DB) :
    playerRecordLoop team_id ({player_id := pid, result := PResult.sub} :: rest) s =
        playerRecordLoop team_id rest s ∧
    playerRollbackLoop team_id ({player_id := pid, result := PResult.sub} :: rest) s =
        playerRollbackLoop team_id rest s ∧
    (∀ l : List PlayerResult, playerRecordLoop team_id l s =
        playerRecordLoop team_id (l.filter (fun p => !(p.result == PResult.sub))) s) ∧
    (∀ l : List PlayerResult, playerRollbackLoop team_id l s =
        playerRollbackLoop team_id (l.filter (fun p => !(p.result == PResult.sub))) s) :=
  ⟨rfl, rfl, fun l => playerRecordLoop_filter_sub team_id l s,
   fun l => playerRollbackLoop_filter_sub team_id l s⟩

/-! Claim C7: rollback of an absent ledger id. -/

/-- Claim C7: deleting a match id that is absent from the ledger fails
(with a not-found error when the id is well-formed) and leaves the whole
state untouched; in particular a second rollback of an already removed
id never subtracts any delta again. -/
theorem claim_C7_delete_absent (id : String) (s : DB)
    (h : findFirst id s.matches_collection = none) :
    deleteMatch id s =
      (s, Except.error (if ObjectId.isValid id then Err.notFound else Err.badRequest)) := by
  unfold deleteMatch
  by_cases hvb : ObjectId.isValid id = true
  · simp [hvb, h]
  · have hvf : ObjectId.isValid id = false := by simpa using hvb
    simp [hvf]

/-- An id absent from every fixture ledger. -/
def wAbsentId : String := "dddddddddddddddddddddddd"

theorem claim_C7_witness :
    (findFirst wAbsentId wDB.matches_collection = none) ∧
    deleteMatch wAbsentId wDB =
      (wDB, Except.error (if ObjectId.isValid wAbsentId then Err.notFound else Err.badRequest)) :=
  ⟨rfl, claim_C7_delete_absent wAbsentId wDB rfl⟩

/-! Claim C9: the derived unbeaten percentage. -/

/-- Claim C9: the player view computes unbeaten_percentage at read time
as round(100 * (wins + draws) / matches_played, 2) whenever
matches_played is positive and 0.0 otherwise; the stored player document
carries no such field (it is never persisted). -/
theorem claim_C9_unbeaten_percentage (id : String) (p : PlayerDoc) :
    (player_helper id p).unbeaten_percentage =
      (if 0 < p.matches_played then
        round2 (100 * ((p.wins : ℚ) + (p.draws : ℚ)) / (p.matches_played : ℚ))
      else 0) := by
  unfold player_helper
  dsimp only
  by_cases h : 0 < p.matches_played
  · rw [if_pos h, if_pos h]
    have harg : (((p.wins : ℚ) + (p.draws : ℚ)) / (p.matches_played : ℚ) * 100) =
        100 * ((p.wins : ℚ) + (p.draws : ℚ)) / (p.matches_played : ℚ) := by
      ring
    rw [harg]
  · rw [if_neg h, if_neg h]

/-! Claim C10: the ledger entry is persisted before any validation. -/

/-- Claim C10: record_match inserts the ledger entry before any
validation; with a malformed team_id the ObjectId constructor then
raises, leaving the ledger entry persisted while no aggregate counter
was ever touched. -/
theorem claim_C10_insert_before_validation (m : MatchCreate) (s : DB)
    (h : ObjectId.isValid m.team_id = false) :
    recordMatch m s =
      ({s with
        matches_collection :=
          s.matches_collection ++
            [(freshOid s.fresh, mkMatchDoc m (resolveOutcome m.player_results).1)],
        fresh := s.fresh + 1},
       Except.error Err.invalidObjectId) := by
  unfold recordMatch
  dsimp only
  simp [h]

/-- A submission whose team_id is not a parseable ObjectId. -/
def wBadMatch : MatchCreate :=
  {tournament_id := "t1", team_id := "not-an-objectid", opponent_name := "X",
   player_results := []}

theorem claim_C10_witness :
    (ObjectId.isValid wBadMatch.team_id = false) ∧
    recordMatch wBadMatch wDB =
      ({wDB with
        matches_collection :=
          wDB.matches_collection ++
            [(freshOid wDB.fresh, mkMatchDoc wBadMatch (resolveOutcome wBadMatch.player_results).1)],
        fresh := wDB.fresh + 1},
       Except.error Err.invalidObjectId) :=
  ⟨by decide, claim_C10_insert_before_validation wBadMatch wDB (by decide)⟩

/-! Claim C8 (corrected): the record response. -/

/-- Counterexample to claim C8 as stated: on a successful record the
response dictionary is exactly message and team_result; it contains
neither a match_id key nor a points_awarded key. -/
theorem claim_C8_counterexample :
    (recordMatch wMatch wDB).2 =
      Except.ok [("message", "Match recorded"), ("team_result", "win")] ∧
    ((([("message", "Match recorded"), ("team_result", "win")] :
        List (String × String)).map Prod.fst).contains "match_id" = false) ∧
    ((([("message", "Match recorded"), ("team_result", "win")] :
        List (String × String)).map Prod.fst).contains "points_awarded" = false) := by
  refine ⟨?_, by decide, by decide⟩
  rfl

/-- Claim C8 amended: a successful record returns only the message and
the resolved team_result; the minted ledger id and the awarded points
are not part of the response. -/
theorem claim_C8_amended_response (m : MatchCreate) (s : DB) (hv : m.validInput) :
    (recordMatch m s).2 =
      Except.ok [("message", "Match recorded"),
        ("team_result", teamResultStr (resolveOutcome m.player_results).1)] ∧
    ((([("message", "Match recorded"),
        ("team_result", teamResultStr (resolveOutcome m.player_results).1)] :
          List (String × String)).map Prod.fst) = ["message", "team_result"]) := by
  constructor
  · rw [recordMatch_eq_of_valid m s hv]
  · rfl

theorem claim_C8_witness :
    wMatch.validInput ∧
    ((recordMatch wMatch wDB).2 =
      Except.ok [("message", "Match recorded"),
        ("team_result", teamResultStr (resolveOutcome wMatch.player_results).1)] ∧
    ((([("message", "Match recorded"),
        ("team_result", teamResultStr (resolveOutcome wMatch.player_results).1)] :
          List (String × String)).map Prod.fst) = ["message", "team_result"])) :=
  ⟨by decide, claim_C8_amended_response wMatch wDB (by decide)⟩

/-! Claim C4 (corrected): no existence validation in record_match. -/

/-- A state with no teams and no tournaments at all. -/
def c4DB : DB :=
  {players := fun _ => none, teams := fun _ => none, tournaments := fun _ => none,
   matches_collection := [], fresh := 0}

/-- A submission naming a well-formed but nonexistent team and
tournament. -/
def c4Match : MatchCreate :=
  {tournament_id := "eeeeeeeeeeeeeeeeeeeeeeee", team_id := "ffffffffffffffffffffffff",
   opponent_name := "X", player_results := []}

/-- Counterexample to claim C4 as stated: with an unknown team_id and
tournament_id, record_match raises no validation error: it reports
success and a ledger entry is written. -/
theorem claim_C4_counterexample :
    c4DB.teams c4Match.team_id = none ∧
    c4DB.tournaments c4Match.tournament_id = none ∧
    (recordMatch c4Match c4DB).2 =
      Except.ok [("message", "Match recorded"), ("team_result", "draw")] ∧
    (recordMatch c4Match c4DB).1.matches_collection.length = 1 ∧
    c4DB.matches_collection.length = 0 := by
  refine ⟨rfl, rfl, ?_, ?_, rfl⟩ <;> rfl

lemma recStep_teams_of_none (team_id : String) (s : DB) (p : PlayerResult)
    (h : s.teams team_id = none) : (recStep team_id s p).teams = s.teams := by
  unfold recStep
  by_cases hp : p.result = PResult.sub
  · simp [hp]
  · simp only [if_neg hp]
    show updateOne team_id _ s.teams = s.teams
    exact updateOne_of_none _ _ _ h

lemma recFold_teams_of_none (team_id : String) (l : List PlayerResult) (s : DB)
    (h : s.teams team_id = none) : (recFold team_id l s).teams = s.teams := by
  induction l generalizing s with
  | nil => rfl
  | cons p rest ih =>
    show (recFold team_id rest (recStep team_id s p)).teams = s.teams
    rw [ih (recStep team_id s p) (by rw [recStep_teams_of_none _ _ _ h]; exact h),
      recStep_teams_of_none _ _ _ h]

/-- Claim C4 amended: record_match performs no existence validation of
team_id or tournament_id.  With a well-formed team_id that matches no
team document the call succeeds, the ledger entry is inserted, and every
aggregate update silently matches nothing: the teams collection (and the
never-consulted tournaments collection) is left unchanged. -/
theorem claim_C4_amended_no_validation (m : MatchCreate) (s : DB) (hv : m.validInput)
    (ht : s.teams m.team_id = none) :
    (recordMatch m s).2 =
      Except.ok [("message", "Match recorded"),
        ("team_result", teamResultStr (resolveOutcome m.player_results).1)] ∧
    (recordMatch m s).1.teams = s.teams ∧
    (recordMatch m s).1.tournaments = s.tournaments ∧
    (recordMatch m s).1.matches_collection =
      s.matches_collection ++
        [(freshOid s.fresh, mkMatchDoc m (resolveOutcome m.player_results).1)] := by
  rw [recordMatch_eq_of_valid m s hv]
  dsimp only
  refine ⟨rfl, ?_, ?_, ?_⟩
  · have hagg : (teamAgg m.team_id
        (teamStatsRecordInc (resolveOutcome m.player_results).1
          (resolveOutcome m.player_results).2)
        {s with
          matches_collection :=
            s.matches_collection ++
              [(freshOid s.fresh, mkMatchDoc m (resolveOutcome m.player_results).1)],
          fresh := s.fresh + 1}).teams = s.teams := by
      show updateOne m.team_id _ s.teams = s.teams
      exact updateOne_of_none _ _ _ ht
    rw [recFold_teams_of_none _ _ _ (by rw [hagg]; exact ht), hagg]
  · rw [recFold_tournaments]
    rfl
  · rw [recFold_matches]
    rfl

theorem claim_C4_witness :
    (wMatch.validInput ∧ c4DB.teams wMatch.team_id = none) ∧
    ((recordMatch wMatch c4DB).2 =
      Except.ok [("message", "Match recorded"),
        ("team_result", teamResultStr (resolveOutcome wMatch.player_results).1)] ∧
    (recordMatch wMatch c4DB).1.teams = c4DB.teams ∧
    (recordMatch wMatch c4DB).1.tournaments = c4DB.tournaments ∧
    (recordMatch wMatch c4DB).1.matches_collection =
      c4DB.matches_collection ++
        [(freshOid c4DB.fresh, mkMatchDoc wMatch (resolveOutcome wMatch.player_results).1)]) :=
  ⟨⟨by decide, rfl⟩,
   claim_C4_amended_no_validation wMatch c4DB (by decide) rfl⟩

/-! Claim C3: the sum invariant wins + draws + losses = matches_played. -/

/-- The sum invariant on a tournament-scoped counter set. -/
def statsOk (st : PlayerStats) : Prop :=
  st.wins + st.draws + st.loss = st.matches_played

/-- The sum invariant on a global player document. -/
def playerDocOk (p : PlayerDoc) : Prop :=
  p.wins + p.draws + p.loss = p.matches_played

/-- The sum invariant on a team stats sub-document. -/
def teamStatsOk (st : TeamStats) : Prop :=
  st.wins + st.draws + st.loss = st.matches_played

/-- The sum invariant on a team document: team scope and every embedded
roster sub-record. -/
def teamDocOk (td : TeamDoc) : Prop :=
  teamStatsOk td.stats ∧ ∀ e ∈ td.players, statsOk e.stats

/-- The sum invariant over the whole state: every stored player and every
stored team satisfies it at all three scopes. -/
def DB.sumInv (s : DB) : Prop :=
  (∀ k p, s.players k = some p → playerDocOk p) ∧
  (∀ k td, s.teams k = some td → teamDocOk td)

/-- The operations of the match lifecycle: record (POST), rollback
(DELETE) and replace (PUT). -/
inductive Op where
  | record (m : MatchCreate)
  | rollback (id : String)
  | replace (id : String) (m : MatchCreate)

/-- The state reached by one route call (errors leave the state the
route reached when it raised). -/
def applyOp (s : DB) (o : Op) : DB :=
  match o with
  | Op.record m => (recordMatch m s).1
  | Op.rollback id => (deleteMatch id s).1
  | Op.replace id m => (updateMatch id m s).1

/-- A finite sequence of route calls. -/
def run (ops : List Op) (s : DB) : DB := ops.foldl applyOp s

instance (st : PlayerStats) : Decidable (statsOk st) := by
  unfold statsOk
  infer_instance

instance (p : PlayerDoc) : Decidable (playerDocOk p) := by
  unfold playerDocOk
  infer_instance

instance (st : TeamStats) : Decidable (teamStatsOk st) := by
  unfold teamStatsOk
  infer_instance

instance (td : TeamDoc) : Decidable (teamDocOk td) := by
  unfold teamDocOk
  infer_instance

lemma updateOne_pres {α : Type} (P : α → Prop) (k : String) (f : α → α) (c : Coll α)
    (hf : ∀ x, P x → P (f x)) (hc : ∀ k2 x, c k2 = some x → P x) :
    ∀ k2 x, updateOne k f c k2 = some x → P x := by
  intro k2 x hx
  unfold updateOne at hx
  by_cases h : k2 = k
  · rw [if_pos h] at hx
    cases hcx : c k2 with
    | none => rw [hcx] at hx; simp at hx
    | some y =>
      rw [hcx] at hx
      simp at hx
      exact hx ▸ hf y (hc k2 y hcx)
  · rw [if_neg h] at hx
    exact hc k2 x hx

lemma globalRecordInc_ok (r : PResult) (hr : r ≠ PResult.sub) (p : PlayerDoc)
    (hp : playerDocOk p) : playerDocOk (globalRecordInc r p) := by
  cases r <;> simp [globalRecordInc, playerDocOk] at * <;> omega

lemma globalRollbackInc_ok (r : PResult) (hr : r ≠ PResult.sub) (p : PlayerDoc)
    (hp : playerDocOk p) : playerDocOk (globalRollbackInc r p) := by
  cases r <;> simp [globalRollbackInc, playerDocOk] at * <;> omega

lemma tournamentRecordInc_ok (r : PResult) (hr : r ≠ PResult.sub) (st : PlayerStats)
    (hp : statsOk st) : statsOk (tournamentRecordInc r st) := by
  cases r <;> simp [tournamentRecordInc, statsOk] at * <;> omega

lemma tournamentRollbackInc_ok (r : PResult) (hr : r ≠ PResult.sub) (st : PlayerStats)
    (hp : statsOk st) : statsOk (tournamentRollbackInc r st) := by
  cases r <;> simp [tournamentRollbackInc, statsOk] at * <;> omega

lemma teamStatsRecordInc_ok (tr : TeamResult) (pts : Int) (st : TeamStats)
    (hp : teamStatsOk st) : teamStatsOk (teamStatsRecordInc tr pts st) := by
  cases tr <;> simp [teamStatsRecordInc, teamStatsOk] at * <;> omega

lemma teamStatsRollbackInc_ok (tr : TeamResult) (st : TeamStats)
    (hp : teamStatsOk st) : teamStatsOk (teamStatsRollbackInc tr st) := by
  cases tr <;> simp [teamStatsRollbackInc, teamStatsOk] at * <;> omega

lemma updFirst_pres (pid : String) (f : PlayerStats → PlayerStats)
    (l : List TeamPlayerRecord) (hf : ∀ st, statsOk st → statsOk (f st))
    (hl : ∀ e ∈ l, statsOk e.stats) : ∀ e ∈ updFirst pid f l, statsOk e.stats := by
  induction l with
  | nil => simp [updFirst]
  | cons e rest ih =>
    by_cases he : e.player_id = pid
    · intro e2 he2
      rw [updFirst, if_pos he] at he2
      rcases List.mem_cons.1 he2 with h1 | h1
      · subst h1
        exact hf _ (hl e (List.mem_cons_self e rest))
      · exact hl e2 (List.mem_cons_of_mem e h1)
    · intro e2 he2
      rw [updFirst, if_neg he] at he2
      rcases List.mem_cons.1 he2 with h1 | h1
      · rw [h1]
        exact hl e (List.mem_cons_self e rest)
      · exact ih (fun e3 h3 => hl e3 (List.mem_cons_of_mem e h3)) e2 h1

lemma teamAgg_sumInv (team_id : String) (f : TeamStats → TeamStats) (s : DB)
    (hf : ∀ st, teamStatsOk st → teamStatsOk (f st)) (h : s.sumInv) :
    (teamAgg team_id f s).sumInv := by
  refine ⟨h.1, ?_⟩
  intro k td htd
  exact updateOne_pres teamDocOk team_id (teamStatsUpd f) s.teams
    (fun td2 h2 => ⟨hf _ h2.1, h2.2⟩) h.2 k td htd

lemma applyPlayerRecord_sumInv (team_id : String) (p : PlayerResult) (s : DB)
    (hp : p.result ≠ PResult.sub) (h : s.sumInv) :
    (applyPlayerRecord team_id p s).sumInv := by
  constructor
  · intro k x hx
    exact updateOne_pres playerDocOk _ _ _
      (fun y hy => globalRecordInc_ok p.result hp y hy) h.1 k x hx
  · intro k td htd
    refine updateOne_pres teamDocOk _ _ _ ?_ h.2 k td htd
    intro td2 h2
    exact ⟨h2.1, updFirst_pres _ _ _
      (fun st hst => tournamentRecordInc_ok p.result hp st hst) h2.2⟩

lemma applyPlayerRollback_sumInv (team_id : String) (p : PlayerResult) (s : DB)
    (hp : p.result ≠ PResult.sub) (h : s.sumInv) :
    (applyPlayerRollback team_id p s).sumInv := by
  constructor
  · intro k x hx
    exact updateOne_pres playerDocOk _ _ _
      (fun y hy => globalRollbackInc_ok p.result hp y hy) h.1 k x hx
  · intro k td htd
    refine updateOne_pres teamDocOk _ _ _ ?_ h.2 k td htd
    intro td2 h2
    exact ⟨h2.1, updFirst_pres _ _ _
      (fun st hst => tournamentRollbackInc_ok p.result hp st hst) h2.2⟩

lemma playerRecordLoop_sumInv (team_id : String) (l : List PlayerResult) (s : DB)
    (h : s.sumInv) : ((playerRecordLoop team_id l s).1).sumInv := by
  induction l generalizing s with
  | nil => exact h
  | cons p rest ih =>
    by_cases hp : p.result = PResult.sub
    · rw [playerRecordLoop, if_pos hp]
      exact ih s h
    · by_cases hv : ObjectId.isValid p.player_id = true
      · rw [playerRecordLoop, if_neg hp, if_pos hv]
        exact ih _ (applyPlayerRecord_sumInv team_id p s hp h)
      · rw [playerRecordLoop, if_neg hp, if_neg hv]
        exact h

lemma playerRollbackLoop_sumInv (team_id : String) (l : List PlayerResult) (s : DB)
    (h : s.sumInv) : ((playerRollbackLoop team_id l s).1).sumInv := by
  induction l generalizing s with
  | nil => exact h
  | cons p rest ih =>
    by_cases hp : p.result = PResult.sub
    · rw [playerRollbackLoop, if_pos hp]
      exact ih s h
    · by_cases hv : ObjectId.isValid p.player_id = true
      · rw [playerRollbackLoop, if_neg hp, if_pos hv]
        exact ih _ (applyPlayerRollback_sumInv team_id p s hp h)
      · rw [playerRollbackLoop, if_neg hp, if_neg hv]
        exact h

lemma rollbackMatchStats_sumInv (doc : MatchDoc) (s : DB) (h : s.sumInv) :
    ((rollbackMatchStats doc s).1).sumInv := by
  unfold rollbackMatchStats
  by_cases hv : ObjectId.isValid doc.team_id = true
  · rw [if_pos hv]
    exact playerRollbackLoop_sumInv _ _ _
      (teamAgg_sumInv _ _ _ (fun st => teamStatsRollbackInc_ok _ st) h)
  · rw [if_neg hv]
    exact h

lemma recordMatch_sumInv (m : MatchCreate) (s : DB) (h : s.sumInv) :
    ((recordMatch m s).1).sumInv := by
  unfold recordMatch
  dsimp only
  by_cases hv : ObjectId.isValid m.team_id = true
  · rw [if_pos hv]
    have hloop := playerRecordLoop_sumInv m.team_id m.player_results
      (teamAgg m.team_id
        (teamStatsRecordInc (resolveOutcome m.player_results).1
          (resolveOutcome m.player_results).2)
        {s with
          matches_collection :=
            s.matches_collection ++
              [(freshOid s.fresh, mkMatchDoc m (resolveOutcome m.player_results).1)],
          fresh := s.fresh + 1})
      (teamAgg_sumInv _ _ _ (fun st => teamStatsRecordInc_ok _ _ st) h)
    rcases hlp : playerRecordLoop m.team_id m.player_results
      (teamAgg m.team_id
        (teamStatsRecordInc (resolveOutcome m.player_results).1
          (resolveOutcome m.player_results).2)
        {s with
          matches_collection :=
            s.matches_collection ++
              [(freshOid s.fresh, mkMatchDoc m (resolveOutcome m.player_results).1)],
          fresh := s.fresh + 1}) with ⟨s3, e⟩
    rw [hlp] at hloop
    cases e <;> simpa [hlp] using hloop
  · rw [if_neg hv]
    exact h

lemma deleteMatch_sumInv (id : String) (s : DB) (h : s.sumInv) :
    ((deleteMatch id s).1).sumInv := by
  unfold deleteMatch
  by_cases hv : ObjectId.isValid id = true
  · rw [if_pos hv]
    cases hfd : findFirst id s.matches_collection with
    | none => exact h
    | some doc =>
      have hrb := rollbackMatchStats_sumInv doc s h
      rcases hr : rollbackMatchStats doc s with ⟨s1, e⟩
      rw [hr] at hrb
      cases e <;> simpa [hr] using hrb
  · rw [if_neg hv]
    exact h

lemma updateMatch_sumInv (id : String) (m : MatchCreate) (s : DB) (h : s.sumInv) :
    ((updateMatch id m s).1).sumInv := by
  unfold updateMatch
  by_cases hv : ObjectId.isValid id = true
  · rw [if_pos hv]
    cases hfd : findFirst id s.matches_collection with
    | none => exact h
    | some old =>
      have hrb := rollbackMatchStats_sumInv old s h
      rcases hr : rollbackMatchStats old s with ⟨s1, e⟩
      rw [hr] at hrb
      cases e with
      | some err => simpa [hr] using hrb
      | none =>
        dsimp only
        rw [hr]
        dsimp only
        by_cases hv2 : ObjectId.isValid m.team_id = true
        · rw [if_pos hv2]
          have hloop := playerRecordLoop_sumInv m.team_id m.player_results
            (teamAgg m.team_id
              (teamStatsRecordInc (resolveOutcome m.player_results).1
                (resolveOutcome m.player_results).2)
              {s1 with
                matches_collection :=
                  deleteFirst id s1.matches_collection ++
                    [(id, mkMatchDoc m (resolveOutcome m.player_results).1)]})
            (teamAgg_sumInv _ _ _ (fun st => teamStatsRecordInc_ok _ _ st) hrb)
          rcases hlp : playerRecordLoop m.team_id m.player_results
            (teamAgg m.team_id
              (teamStatsRecordInc (resolveOutcome m.player_results).1
                (resolveOutcome m.player_results).2)
              {s1 with
                matches_collection :=
                  deleteFirst id s1.matches_collection ++
                    [(id, mkMatchDoc m (resolveOutcome m.player_results).1)]}) with ⟨s5, e2⟩
          rw [hlp] at hloop
          cases e2 <;> simpa [hlp] using hloop
        · rw [if_neg hv2]
          exact hrb
  · rw [if_neg hv]
    exact h

/-- Claim C3: if every stored player and team initially satisfies
wins + draws + losses = matches_played (at global, team and embedded
tournament scope), then after any finite sequence of record, rollback
and replace route calls the equality still holds everywhere. -/
theorem claim_C3_sum_invariant (ops : List Op) (s : DB) (h : DB.sumInv s) :
    DB.sumInv (run ops s) := by
  induction ops generalizing s with
  | nil => exact h
  | cons o rest ih =>
    show DB.sumInv (run rest (applyOp s o))
    refine ih _ ?_
    cases o with
    | record m => exact recordMatch_sumInv m s h
    | rollback id => exact deleteMatch_sumInv id s h
    | replace id m => exact updateMatch_sumInv id m s h

theorem claim_C3_witness :
    DB.sumInv wDB ∧
    DB.sumInv (run [Op.record wMatch, Op.rollback wAbsentId, Op.replace wAbsentId wMatch] wDB) := by
  have h : DB.sumInv wDB := by
    constructor
    · intro k p hp
      by_cases hk : k = wP1
      · simp [wDB, hk] at hp
        rw [← hp]
        decide
      · simp [wDB, hk] at hp
    · intro k td htd
      by_cases hk : k = wTeamId
      · simp [wDB, hk] at htd
        rw [← htd]
        decide
      · simp [wDB, hk] at htd
  exact ⟨h,
    claim_C3_sum_invariant [Op.record wMatch, Op.rollback wAbsentId, Op.replace wAbsentId wMatch]
      wDB h⟩

/-! Claim C5: the edit orchestrator (PUT update_match). -/

lemma countKey_cons (id : String) (e : String × MatchDoc) (rest : List (String × MatchDoc)) :
    countKey id (e :: rest) = countKey id rest + (if e.1 = id then 1 else 0) := by
  unfold countKey
  rw [List.countP_cons]
  by_cases he : e.1 = id <;> simp [he]

lemma countKey_append (id : String) (l1 l2 : List (String × MatchDoc)) :
    countKey id (l1 ++ l2) = countKey id l1 + countKey id l2 :=
  List.countP_append _ _ _

lemma countKey_deleteFirst_zero (id : String) (l : List (String × MatchDoc))
    (h : countKey id l = 1) : countKey id (deleteFirst id l) = 0 := by
  induction l with
  | nil => simp [countKey] at h
  | cons e rest ih =>
    rw [countKey_cons] at h
    by_cases he : e.1 = id
    · rw [if_pos he] at h
      simp only [deleteFirst, if_pos he]
      omega
    · rw [if_neg he] at h
      simp only [deleteFirst, if_neg he]
      rw [countKey_cons, if_neg he]
      simpa using ih (by omega)

lemma findFirst_eq_none_of_countKey_zero (id : String) (l : List (String × MatchDoc))
    (h : countKey id l = 0) : findFirst id l = none := by
  induction l with
  | nil => rfl
  | cons e rest ih =>
    rw [countKey_cons] at h
    by_cases he : e.1 = id
    · rw [if_pos he] at h
      omega
    · rw [if_neg he] at h
      rw [findFirst_cons, if_neg he]
      exact ih (by omega)

lemma recStep_players_teams_congr (team_id : String) (p : PlayerResult) (s t : DB)
    (hp : s.players = t.players) (ht : s.teams = t.teams) :
    (recStep team_id s p).players = (recStep team_id t p).players ∧
    (recStep team_id s p).teams = (recStep team_id t p).teams := by
  unfold recStep
  by_cases hs : p.result = PResult.sub
  · simp [hs, hp, ht]
  · simp only [if_neg hs]
    unfold applyPlayerRecord
    exact ⟨by simp [hp], by simp [ht]⟩

lemma recFold_players_teams_congr (team_id : String) (l : List PlayerResult) (s t : DB)
    (hp : s.players = t.players) (ht : s.teams = t.teams) :
    (recFold team_id l s).players = (recFold team_id l t).players ∧
    (recFold team_id l s).teams = (recFold team_id l t).teams := by
  induction l generalizing s t with
  | nil => exact ⟨hp, ht⟩
  | cons p rest ih =>
    show (recFold team_id rest (recStep team_id s p)).players =
        (recFold team_id rest (recStep team_id t p)).players ∧
      (recFold team_id rest (recStep team_id s p)).teams =
        (recFold team_id rest (recStep team_id t p)).teams
    exact ih _ _ (recStep_players_teams_congr team_id p s t hp ht).1
      (recStep_players_teams_congr team_id p s t hp ht).2

lemma deleteMatch_eq_of_valid (id : String) (s : DB) (old : MatchDoc)
    (hid : ObjectId.isValid id = true)
    (hold : findFirst id s.matches_collection = some old)
    (hov : old.validStored) :
    deleteMatch id s =
      ({rbFold old.team_id old.player_results
          (teamAgg old.team_id (teamStatsRollbackInc old.calculated_team_result) s) with
        matches_collection := deleteFirst id s.matches_collection},
       Except.ok [("message", "Match deleted and stats rolled back")]) := by
  unfold deleteMatch
  rw [if_pos hid, hold]
  dsimp only
  rw [rollbackMatchStats_eq_fold _ _ hov]
  dsimp only
  rw [rbFold_matches]
  rfl

lemma updateMatch_eq_of_valid (id : String) (m : MatchCreate) (s : DB) (old : MatchDoc)
    (hid : ObjectId.isValid id = true)
    (hold : findFirst id s.matches_collection = some old)
    (hov : old.validStored)
    (hmv : m.validInput) :
    updateMatch id m s =
      (recFold m.team_id m.player_results
        (teamAgg m.team_id
          (teamStatsRecordInc (resolveOutcome m.player_results).1
            (resolveOutcome m.player_results).2)
          {rbFold old.team_id old.player_results
              (teamAgg old.team_id (teamStatsRollbackInc old.calculated_team_result) s) with
            matches_collection :=
              deleteFirst id s.matches_collection ++
                [(id, mkMatchDoc m (resolveOutcome m.player_results).1)]}),
       Except.ok [("message", "Match updated successfully")]) := by
  unfold updateMatch
  rw [if_pos hid, hold]
  dsimp only
  rw [rollbackMatchStats_eq_fold _ _ hov]
  dsimp only
  rw [if_pos hmv.1]
  rw [playerRecordLoop_eq_fold _ _ _ hmv.2]
  dsimp only
  rw [rbFold_matches]
  rfl

/-- Claim C5: replace (PUT update_match) leaves exactly one ledger entry
under the old match id, that entry stores exactly the new input fields
(with the freshly resolved team result), and the aggregate effect on the
players and teams collections equals rollback of the old match followed
by record of the new input. -/
theorem claim_C5_replace_preserves_identity (id : String) (m : MatchCreate) (s : DB)
    (old : MatchDoc)
    (hid : ObjectId.isValid id = true)
    (hone : countKey id s.matches_collection = 1)
    (hold : findFirst id s.matches_collection = some old)
    (hov : old.validStored)
    (hmv : m.validInput) :
    (updateMatch id m s).2 = Except.ok [("message", "Match updated successfully")] ∧
    countKey id ((updateMatch id m s).1).matches_collection = 1 ∧
    findFirst id ((updateMatch id m s).1).matches_collection =
      some (mkMatchDoc m (resolveOutcome m.player_results).1) ∧
    ((updateMatch id m s).1).players = ((recordMatch m (deleteMatch id s).1).1).players ∧
    ((updateMatch id m s).1).teams = ((recordMatch m (deleteMatch id s).1).1).teams := by
  rw [updateMatch_eq_of_valid id m s old hid hold hov hmv,
    deleteMatch_eq_of_valid id s old hid hold hov, recordMatch_eq_of_valid m _ hmv]
  dsimp only
  set SR := rbFold old.team_id old.player_results
    (teamAgg old.team_id (teamStatsRollbackInc old.calculated_team_result) s) with hSR
  have hzero : countKey id (deleteFirst id s.matches_collection) = 0 :=
    countKey_deleteFirst_zero id s.matches_collection hone
  refine ⟨rfl, ?_, ?_, ?_, ?_⟩
  · rw [recFold_matches]
    show countKey id (deleteFirst id s.matches_collection ++
      [(id, mkMatchDoc m (resolveOutcome m.player_results).1)]) = 1
    rw [countKey_append, hzero]
    simp [countKey]
  · rw [recFold_matches]
    show findFirst id (deleteFirst id s.matches_collection ++
      [(id, mkMatchDoc m (resolveOutcome m.player_results).1)]) =
      some (mkMatchDoc m (resolveOutcome m.player_results).1)
    exact findFirst_append_self _ _ _ (findFirst_eq_none_of_countKey_zero _ _ hzero)
  · exact (recFold_players_teams_congr m.team_id m.player_results
      (teamAgg m.team_id
        (teamStatsRecordInc (resolveOutcome m.player_results).1
          (resolveOutcome m.player_results).2)
        {SR with
          matches_collection :=
            deleteFirst id s.matches_collection ++
              [(id, mkMatchDoc m (resolveOutcome m.player_results).1)]})
      (teamAgg m.team_id
        (teamStatsRecordInc (resolveOutcome m.player_results).1
          (resolveOutcome m.player_results).2)
        {SR with
          matches_collection :=
            deleteFirst id s.matches_collection ++
              [(freshOid SR.fresh, mkMatchDoc m (resolveOutcome m.player_results).1)],
          fresh := SR.fresh + 1})
      rfl rfl).1
  · exact (recFold_players_teams_congr m.team_id m.player_results
      (teamAgg m.team_id
        (teamStatsRecordInc (resolveOutcome m.player_results).1
          (resolveOutcome m.player_results).2)
        {SR with
          matches_collection :=
            deleteFirst id s.matches_collection ++
              [(id, mkMatchDoc m (resolveOutcome m.player_results).1)]})
      (teamAgg m.team_id
        (teamStatsRecordInc (resolveOutcome m.player_results).1
          (resolveOutcome m.player_results).2)
        {SR with
          matches_collection :=
            deleteFirst id s.matches_collection ++
              [(freshOid SR.fresh, mkMatchDoc m (resolveOutcome m.player_results).1)],
          fresh := SR.fresh + 1})
      rfl rfl).2

/-- A ledger id distinct from any minted id in the fixtures. -/
def w5Id : String := "999999999999999999999999"

/-- A previously recorded ledger entry for the fixture team. -/
def w5OldDoc : MatchDoc :=
  {tournament_id := "cccccccccccccccccccccccc", team_id := wTeamId,
   opponent_name := "Old FC",
   player_results := [{player_id := wP1, result := PResult.loss}],
   calculated_team_result := TeamResult.loss}

/-- The fixture state holding exactly that one ledger entry. -/
def w5DB : DB := {wDB with matches_collection := [(w5Id, w5OldDoc)]}

theorem claim_C5_witness :
    (ObjectId.isValid w5Id = true ∧ countKey w5Id w5DB.matches_collection = 1 ∧
      findFirst w5Id w5DB.matches_collection = some w5OldDoc ∧
      w5OldDoc.validStored ∧ wMatch.validInput) ∧
    ((updateMatch w5Id wMatch w5DB).2 = Except.ok [("message", "Match updated successfully")] ∧
      countKey w5Id ((updateMatch w5Id wMatch w5DB).1).matches_collection = 1 ∧
      findFirst w5Id ((updateMatch w5Id wMatch w5DB).1).matches_collection =
        some (mkMatchDoc wMatch (resolveOutcome wMatch.player_results).1) ∧
      ((updateMatch w5Id wMatch w5DB).1).players =
        ((recordMatch wMatch (deleteMatch w5Id w5DB).1).1).players ∧
      ((updateMatch w5Id wMatch w5DB).1).teams =
        ((recordMatch wMatch (deleteMatch w5Id w5DB).1).1).teams) :=
  ⟨⟨by decide, by decide, rfl, by decide, by decide⟩,
   claim_C5_replace_preserves_identity w5Id wMatch w5DB w5OldDoc
     (by decide) (by decide) rfl (by decide) (by decide)⟩

end Xenon
